import Mathlib

/-!
Shallow embedding of the WagerVS betting backend's ledger / balance /
settlement engine, translated from the TypeScript services
(`BalanceService`, `BetService`, `PayoutService`, `EventService`,
`WalletService`).  Monetary amounts are modelled as exact rationals
(the source uses JS numbers / Prisma Decimals); database tables are
lists; each service method becomes a function `DB → ... → DB × Except Err α`
returning the updated store together with the result, so that failing
paths can be seen to leave the store unchanged (or not).  Reads that the
source performs through the non-transactional client while a transaction
is open are modelled as reads of the pre-transaction snapshot.
-/

namespace WagerVS

/-- The `transactionType` column of the ledger (closed set of strings in
the source; only the values the embedded services read or write). -/
inductive TxType
  | deposit
  | chipsBuy
  | betWon
  | prizeWon
  | referralReward
  | betPlaced
  | eventCreate
  | cashout
  deriving DecidableEq

/-- The `referenceType` column values written by the embedded services. -/
inductive RefType
  | eventBet
  | eventPayout
  | eventRefund
  | cashoutRequest
  | cashoutRequestRefund
  deriving DecidableEq

/-- One row of the `ledger` table (`amount` is the signed amount). -/
structure LedgerEntry where
  userId : Nat
  currency : String
  amount : ℚ
  balanceBefore : ℚ
  balanceAfter : ℚ
  txType : TxType
  refType : Option RefType
  refId : Option Nat
  deriving DecidableEq

inductive BetStatus
  | active
  | won
  | lost
  | refunded
  deriving DecidableEq

inductive EventStatus
  | draft
  | pending
  | active
  | locked
  | completed
  | paidOut
  | cancelled
  deriving DecidableEq

inductive PayoutStatus
  | pending
  | completed
  | rejected
  deriving DecidableEq

inductive CashOutStatus
  | pending
  | completed
  | rejected
  deriving DecidableEq

/-- One row of `event_bets`. -/
structure Bet where
  id : Nat
  eventId : Nat
  userId : Nat
  choiceLetter : String
  amount : ℚ
  status : BetStatus
  deriving DecidableEq

/-- One row of `event_choices`; `(eventId, choiceLetter)` is unique. -/
structure Choice where
  eventId : Nat
  choiceLetter : String
  totalPool : ℚ
  deriving DecidableEq

/-- One row of `events` (the columns the embedded services read). -/
structure Event where
  id : Nat
  status : EventStatus
  lockTime : Option Nat
  winningSide : Option String
  creatorCommission : ℚ
  deriving DecidableEq

/-- One row of `event_payouts`. -/
structure Payout where
  id : Nat
  eventId : Nat
  userId : Nat
  payoutAmount : ℚ
  status : PayoutStatus
  deriving DecidableEq

/-- One row of `cash_out_requests`. -/
structure CashOutRequest where
  id : Nat
  userId : Nat
  amount : ℚ
  status : CashOutStatus
  deriving DecidableEq

/-- The relational store.  `nextId` supplies fresh primary keys
(the source generates UUIDs / auto-ids). -/
structure DB where
  events : List Event
  choices : List Choice
  bets : List Bet
  ledger : List LedgerEntry
  payouts : List Payout
  cashouts : List CashOutRequest
  nextId : Nat
  deriving DecidableEq

/-- `UserBalances` as returned by `BalanceService.getUserBalances`. -/
structure UserBalances where
  purchasedChips : ℚ
  wonChips : ℚ
  freeChips : ℚ
  lockedChips : ℚ
  totalChips : ℚ
  deriving DecidableEq

/-- The error taxonomy: each constructor stands for one `AppError`
thrown by the embedded services, carrying the data the source
interpolates into the message. -/
inductive Err
  | notFound (what : String)
  | eventNotAcceptingBets
  | bettingLocked
  | invalidChoice
  | invalidWinningSide
  | insufficientBalance (available : ℚ)
  | alreadyResolved
  | mustBeLockedOrActive
  | cannotUpdate
  | cannotCancel
  | noPendingPayouts
  | mustBeCancelled
  | insufficientWonChips (available : ℚ)
  | alreadyProcessed
  | withdrawalFailed
  deriving DecidableEq

/-- Accumulator of the classification loop in
`BalanceService.getUserBalances` (purchased, won, free, locked). -/
structure Buckets where
  p : ℚ
  w : ℚ
  f : ℚ
  l : ℚ
  deriving DecidableEq

/-- One iteration of the `switch (tx.transactionType)` loop in
`BalanceService.getUserBalances`. -/
def classifyTx (acc : Buckets) (e : LedgerEntry) : Buckets :=
  match e.txType with
  | .deposit => { acc with p := acc.p + e.amount }
  | .chipsBuy => { acc with p := acc.p + e.amount }
  | .betWon => { acc with w := acc.w + e.amount }
  | .prizeWon => { acc with w := acc.w + e.amount }
  | .referralReward => { acc with f := acc.f + e.amount }
  | .betPlaced => if e.amount < 0 then { acc with l := acc.l + |e.amount| } else acc
  | .eventCreate => acc
  | .cashout => if e.amount < 0 then { acc with w := acc.w + e.amount } else acc

/-- All chip-currency ledger rows of a user, in creation order
(the `prisma.ledger.findMany` at the top of `getUserBalances`). -/
def userChipEntries (db : DB) (u : Nat) : List LedgerEntry :=
  db.ledger.filter (fun e => decide (e.userId = u ∧ e.currency = "chips"))

/-- The classification loop run over a user's chip entries. -/
def rawBuckets (db : DB) (u : Nat) : Buckets :=
  (userChipEntries db u).foldl classifyTx ⟨0, 0, 0, 0⟩

/-- The `prisma.eventBet.aggregate` summing `amount` over the user's
active bets. -/
def activeBetSum (db : DB) (u : Nat) : ℚ :=
  ((db.bets.filter (fun b => decide (b.userId = u ∧ b.status = BetStatus.active))).map
    Bet.amount).sum

/-- `BalanceService.getUserBalances`: classify the ledger into buckets,
overwrite `locked` with the live active-bet aggregate, clamp each bucket
at zero, and total the three spendable buckets.  The source performs no
user-existence check. -/
def getUserBalances (db : DB) (u : Nat) : UserBalances :=
  let acc := rawBuckets db u
  let locked := activeBetSum db u
  let purchased := max 0 acc.p
  let won := max 0 acc.w
  let free := max 0 acc.f
  let lockedClamped := max 0 locked
  { purchasedChips := purchased
    wonChips := won
    freeChips := free
    lockedChips := lockedClamped
    totalChips := purchased + won + free }

/-- `prisma.event.findUnique({ where: { id } })`. -/
def findEvent (db : DB) (eid : Nat) : Option Event :=
  db.events.find? (fun ev => decide (ev.id = eid))

/-- `event.choices.find(c => c.choiceLetter === letter)` against the
choices of one event. -/
def findChoice (db : DB) (eid : Nat) (letter : String) : Option Choice :=
  db.choices.find? (fun c => decide (c.eventId = eid ∧ c.choiceLetter = letter))

/-- The `if (event.lockTime && new Date() >= event.lockTime)` check. -/
def lockCheck (ev : Event) (now : Nat) : Bool :=
  match ev.lockTime with
  | some lt => decide (lt ≤ now)
  | none => false

/-- Result payload of `BetService.placeBet`. -/
structure PlaceBetOk where
  betId : Nat
  balances : UserBalances
  deriving DecidableEq

/-- The `prisma.eventChoice.update({ where: eventId_choiceLetter, data:
{ totalPool: { increment } } })`; the pair is a unique key, so mapping
the guarded update over all rows coincides with the row update. -/
def updChoicePool (eid : Nat) (letter : String) (amt : ℚ) (c : Choice) : Choice :=
  if c.eventId = eid ∧ c.choiceLetter = letter then
    { c with totalPool := c.totalPool + amt }
  else c

/-- `BetService.placeBet`: event / status / lock-time / choice checks,
the `balances.totalChips < amount` sufficiency check, then one atomic
unit creating the bet, incrementing the pool, and appending the
`bet_placed` ledger debit whose before/after pair was captured from the
pre-transaction balance read. -/
def placeBet (db : DB) (now userId eventId : Nat) (choiceLetter : String)
    (amount : ℚ) : DB × Except Err PlaceBetOk :=
  match findEvent db eventId with
  | none => (db, .error (.notFound "Event"))
  | some ev =>
    if ev.status ≠ EventStatus.active then (db, .error .eventNotAcceptingBets)
    else if lockCheck ev now then (db, .error .bettingLocked)
    else
      match findChoice db eventId choiceLetter with
      | none => (db, .error .invalidChoice)
      | some _ =>
        let balances := getUserBalances db userId
        if balances.totalChips < amount then
          (db, .error (.insufficientBalance balances.totalChips))
        else
          let currentBalance := getUserBalances db userId
          let betId := db.nextId
          let newBet : Bet :=
            { id := betId, eventId := eventId, userId := userId,
              choiceLetter := choiceLetter, amount := amount, status := .active }
          let entry : LedgerEntry :=
            { userId := userId, currency := "chips", amount := -amount,
              balanceBefore := currentBalance.totalChips,
              balanceAfter := currentBalance.totalChips - amount,
              txType := .betPlaced, refType := some .eventBet, refId := some betId }
          let db1 : DB :=
            { db with
              bets := db.bets ++ [newBet],
              choices := db.choices.map (updChoicePool eventId choiceLetter amount),
              ledger := db.ledger ++ [entry],
              nextId := db.nextId + 1 }
          (db1, .ok { betId := betId, balances := getUserBalances db1 userId })

/-- `WalletService.depositUSDC` after the external signature
verification and duplicate check (out-of-scope collaborators) have
passed: credit purchased chips 1:1 with one `deposit` ledger entry. -/
def depositUSDC (db : DB) (userId : Nat) (amount : ℚ) : DB × Except Err UserBalances :=
  let currentBalance := getUserBalances db userId
  let entry : LedgerEntry :=
    { userId := userId, currency := "chips", amount := amount,
      balanceBefore := currentBalance.totalChips,
      balanceAfter := currentBalance.totalChips + amount,
      txType := .deposit, refType := none, refId := none }
  let db1 : DB := { db with ledger := db.ledger ++ [entry] }
  (db1, .ok (getUserBalances db1 userId))

/-- `COMPANY_PRIZE_POOL_RAKE = 0.025` from `types/index.ts`. -/
def COMPANY_PRIZE_POOL_RAKE : ℚ := 25 / 1000

/-- The choices relation of one event. -/
def eventChoices (db : DB) (eid : Nat) : List Choice :=
  db.choices.filter (fun c => decide (c.eventId = eid))

/-- The `bets: { where: { status: 'active' } }` relation of one event. -/
def activeEventBets (db : DB) (eid : Nat) : List Bet :=
  db.bets.filter (fun b => decide (b.eventId = eid ∧ b.status = BetStatus.active))

/-- One element of `calculation.payouts`. -/
structure PayoutRow where
  userId : Nat
  betId : Nat
  betAmount : ℚ
  payout : ℚ
  profit : ℚ
  deriving DecidableEq

/-- One element of `calculation.refunds`. -/
structure RefundRow where
  userId : Nat
  amount : ℚ
  betId : Nat
  deriving DecidableEq

/-- Return value of `PayoutService.calculatePayouts`;
`eventRakeAmount` is absent (`undefined`) on the degenerate branch. -/
structure PayoutCalc where
  payouts : List PayoutRow
  refunds : List RefundRow
  totalPaid : ℚ
  eventRakeAmount : Option ℚ
  prizePoolRake : ℚ
  deriving DecidableEq

/-- `PayoutService.calculatePayouts`: pure computation of the two-stage
rake and the pari-mutuel shares, or of the refund list when the winning
pool is zero. -/
def calculatePayouts (db : DB) (eventId : Nat) (winningSide : String) :
    Except Err PayoutCalc :=
  match findEvent db eventId with
  | none => .error (.notFound "Event")
  | some ev =>
    match (eventChoices db eventId).find?
        (fun c => decide (c.choiceLetter = winningSide)) with
    | none => .error .invalidWinningSide
    | some winningChoice =>
      let totalPool := ((eventChoices db eventId).map Choice.totalPool).sum
      let winningPool := winningChoice.totalPool
      let bets := activeEventBets db eventId
      if winningPool = 0 then
        .ok { payouts := []
              refunds := bets.map (fun b => ⟨b.userId, b.amount, b.id⟩)
              totalPaid := 0
              eventRakeAmount := none
              prizePoolRake := 0 }
      else
        let eventRake := ev.creatorCommission
        let eventRakeAmount := totalPool * eventRake
        let poolAfterEventRake := totalPool - eventRakeAmount
        let prizePoolRakeAmount := poolAfterEventRake * COMPANY_PRIZE_POOL_RAKE
        let distributionPool := poolAfterEventRake - prizePoolRakeAmount
        let winningBets := bets.filter (fun b => decide (b.choiceLetter = winningSide))
        let payoutRows := winningBets.map (fun b =>
          let shareOfPool := distributionPool * (b.amount / winningPool)
          (⟨b.userId, b.id, b.amount, shareOfPool, shareOfPool - b.amount⟩ : PayoutRow))
        .ok { payouts := payoutRows
              refunds := []
              totalPaid := (payoutRows.map PayoutRow.payout).sum
              eventRakeAmount := some eventRakeAmount
              prizePoolRake := prizePoolRakeAmount }

/-- Result summary of `PayoutService.resolveEvent`. -/
structure ResolveOk where
  winningSide : String
  payoutsCount : Nat
  totalPayout : ℚ
  eventRake : Option ℚ
  prizePoolRake : ℚ
  deriving DecidableEq

/-- The `updateMany` marking active bets on the winning side `won`. -/
def markBetsWon (eid : Nat) (side : String) (b : Bet) : Bet :=
  if b.eventId = eid ∧ b.choiceLetter = side ∧ b.status = BetStatus.active then
    { b with status := .won }
  else b

/-- The `updateMany` marking active bets not on the winning side `lost`. -/
def markBetsLost (eid : Nat) (side : String) (b : Bet) : Bet :=
  if b.eventId = eid ∧ b.choiceLetter ≠ side ∧ b.status = BetStatus.active then
    { b with status := .lost }
  else b

/-- The per-refund `eventBet.update({ where: { id }, data: { status:
'refunded' } })`. -/
def markRefunded (betId : Nat) (b : Bet) : Bet :=
  if b.id = betId then { b with status := .refunded } else b

/-- The `event.update` setting `status: 'completed'` and the winner. -/
def setEventCompleted (eid : Nat) (side : String) (ev : Event) : Event :=
  if ev.id = eid then { ev with status := .completed, winningSide := some side } else ev

/-- `PayoutService.resolveEvent`: status gate, pure calculation, then
one transaction flipping the event to `completed`, bulk-marking bets
won/lost, creating one pending payout row per winning bet, and setting
each refunded bet's status. -/
def resolveEvent (db : DB) (eventId : Nat) (winningSide : String) :
    DB × Except Err ResolveOk :=
  match findEvent db eventId with
  | none => (db, .error (.notFound "Event"))
  | some ev =>
    if ev.status = EventStatus.completed ∨ ev.status = EventStatus.paidOut then
      (db, .error .alreadyResolved)
    else if ev.status ≠ EventStatus.locked ∧ ev.status ≠ EventStatus.active then
      (db, .error .mustBeLockedOrActive)
    else
      match calculatePayouts db eventId winningSide with
      | .error e => (db, .error e)
      | .ok calcP =>
        let bets1 := db.bets.map (markBetsWon eventId winningSide)
        let bets2 := bets1.map (markBetsLost eventId winningSide)
        let bets3 := calcP.refunds.foldl
          (fun bs r => bs.map (markRefunded r.betId)) bets2
        let newPayouts := calcP.payouts.enum.map (fun pr =>
          ({ id := db.nextId + pr.1, eventId := eventId, userId := pr.2.userId,
             payoutAmount := pr.2.payout, status := .pending } : Payout))
        let db1 : DB :=
          { db with
            events := db.events.map (setEventCompleted eventId winningSide),
            bets := bets3,
            payouts := db.payouts ++ newPayouts,
            nextId := db.nextId + calcP.payouts.length }
        (db1, .ok { winningSide := winningSide, payoutsCount := calcP.payouts.length,
                    totalPayout := calcP.totalPaid, eventRake := calcP.eventRakeAmount,
                    prizePoolRake := calcP.prizePoolRake })

/-- The pending payouts of one event, as fetched at the top of
`distributePayouts`. -/
def pendingPayouts (db : DB) (eid : Nat) : List Payout :=
  db.payouts.filter (fun p => decide (p.eventId = eid ∧ p.status = PayoutStatus.pending))

/-- The `eventPayout.update` marking one payout row completed. -/
def completeById (pid : Nat) (q : Payout) : Payout :=
  if q.id = pid then { q with status := .completed } else q

/-- The `bet_won` ledger credit for one payout; the balance snapshot is
read through the non-transactional client, i.e. from the
pre-transaction store. -/
def payoutEntry (snapshot : DB) (p : Payout) : LedgerEntry :=
  let currentBalance := getUserBalances snapshot p.userId
  { userId := p.userId, currency := "chips", amount := p.payoutAmount,
    balanceBefore := currentBalance.totalChips,
    balanceAfter := currentBalance.totalChips + p.payoutAmount,
    txType := .betWon, refType := some .eventPayout, refId := some p.id }

/-- One iteration of the distribution loop: append the credit and mark
the payout completed. -/
def creditPayout (snapshot acc : DB) (p : Payout) : DB :=
  { acc with
    ledger := acc.ledger ++ [payoutEntry snapshot p],
    payouts := acc.payouts.map (completeById p.id) }

/-- The `event.update` setting `status: 'paid_out'`. -/
def setEventPaidOut (eid : Nat) (ev : Event) : Event :=
  if ev.id = eid then { ev with status := .paidOut } else ev

/-- `PayoutService.distributePayouts`: error if no pending payouts,
otherwise credit each pending payout once, mark it completed, and flip
the event to `paid_out` (no event-status precondition in the source). -/
def distributePayouts (db : DB) (eventId : Nat) :
    DB × Except Err (List (Nat × ℚ)) :=
  let ps := pendingPayouts db eventId
  if ps.isEmpty then (db, .error .noPendingPayouts)
  else
    let db1 := ps.foldl (creditPayout db) db
    let db2 : DB := { db1 with events := db1.events.map (setEventPaidOut eventId) }
    (db2, .ok (ps.map (fun p => (p.userId, p.payoutAmount))))

/-- The `bet_won` ledger credit refunding one bet of a cancelled event
(balance snapshot again read outside the transaction). -/
def refundEntry (snapshot : DB) (b : Bet) : LedgerEntry :=
  let currentBalance := getUserBalances snapshot b.userId
  { userId := b.userId, currency := "chips", amount := b.amount,
    balanceBefore := currentBalance.totalChips,
    balanceAfter := currentBalance.totalChips + b.amount,
    txType := .betWon, refType := some .eventRefund, refId := some b.id }

/-- One iteration of the refund loop: append the credit and mark the
bet refunded. -/
def creditRefund (snapshot acc : DB) (b : Bet) : DB :=
  { acc with
    ledger := acc.ledger ++ [refundEntry snapshot b],
    bets := acc.bets.map (markRefunded b.id) }

/-- `PayoutService.refundEvent`: only a `cancelled` event may be
refunded; every active bet then receives a `bet_won` credit of its full
stake and is marked refunded. -/
def refundEvent (db : DB) (eventId : Nat) :
    DB × Except Err (List (Nat × ℚ)) :=
  match findEvent db eventId with
  | none => (db, .error (.notFound "Event"))
  | some ev =>
    if ev.status ≠ EventStatus.cancelled then (db, .error .mustBeCancelled)
    else
      let bets := activeEventBets db eventId
      if bets.isEmpty then (db, .ok [])
      else
        let db1 := bets.foldl (creditRefund db) db
        (db1, .ok (bets.map (fun b => (b.userId, b.amount))))

/-- The fields of `UpdateEventInput` the embedding needs; the zod
schema `updateEventSchema` admits every one of the seven statuses in
the optional `status` field. -/
structure UpdateEventInput where
  lockTime : Option Nat
  status : Option EventStatus
  deriving DecidableEq

/-- The spread `...(input.status && { status: input.status })` applied
to one event row. -/
def applyUpdate (inp : UpdateEventInput) (ev : Event) : Event :=
  { ev with
    lockTime := match inp.lockTime with | some lt => some lt | none => ev.lockTime,
    status := inp.status.getD ev.status }

/-- `EventService.updateEvent`: rejected only when the event is already
`completed` or `paid_out`; otherwise every supplied field, the status
included, is written as given. -/
def updateEvent (db : DB) (eventId : Nat) (inp : UpdateEventInput) :
    DB × Except Err Unit :=
  match findEvent db eventId with
  | none => (db, .error (.notFound "Event"))
  | some ev =>
    if ev.status = EventStatus.completed ∨ ev.status = EventStatus.paidOut then
      (db, .error .cannotUpdate)
    else
      let evs := db.events.map (fun e => if e.id = eventId then applyUpdate inp e else e)
      ({ db with events := evs }, .ok ())

/-- `EventService.cancelEvent`: rejected when the event is `completed`,
`paid_out` or already `cancelled`; otherwise the status is set to
`cancelled` (refunds are a separate call). -/
def cancelEvent (db : DB) (eventId : Nat) : DB × Except Err Unit :=
  match findEvent db eventId with
  | none => (db, .error (.notFound "Event"))
  | some ev =>
    if ev.status = EventStatus.completed ∨ ev.status = EventStatus.paidOut ∨
        ev.status = EventStatus.cancelled then
      (db, .error .cannotCancel)
    else
      let evs := db.events.map
        (fun e => if e.id = eventId then { e with status := .cancelled } else e)
      ({ db with events := evs }, .ok ())

/-- Result payload of `WalletService.requestWithdrawal`. -/
structure WithdrawOk where
  requestId : Nat
  balances : UserBalances
  deriving DecidableEq

/-- `WalletService.requestWithdrawal`: only won chips are withdrawable;
on success the request row is created and a `cashout` ledger debit
holds the funds immediately. -/
def requestWithdrawal (db : DB) (userId : Nat) (amount : ℚ) :
    DB × Except Err WithdrawOk :=
  let balances := getUserBalances db userId
  if balances.wonChips < amount then
    (db, .error (.insufficientWonChips balances.wonChips))
  else
    let reqId := db.nextId
    let req : CashOutRequest := { id := reqId, userId := userId, amount := amount,
                                  status := .pending }
    let dbA : DB := { db with cashouts := db.cashouts ++ [req], nextId := db.nextId + 1 }
    let currentBalance := getUserBalances dbA userId
    let entry : LedgerEntry :=
      { userId := userId, currency := "chips", amount := -amount,
        balanceBefore := currentBalance.totalChips,
        balanceAfter := currentBalance.totalChips - amount,
        txType := .cashout, refType := some .cashoutRequest, refId := some reqId }
    let db1 : DB := { dbA with ledger := dbA.ledger ++ [entry] }
    (db1, .ok { requestId := reqId, balances := getUserBalances db1 userId })

/-- `prisma.cashOutRequest.findUnique({ where: { id } })`. -/
def findCashout (db : DB) (reqId : Nat) : Option CashOutRequest :=
  db.cashouts.find? (fun r => decide (r.id = reqId))

/-- The `cashOutRequest.update` setting the request's status. -/
def setCashoutStatus (reqId : Nat) (st : CashOutStatus) (db : DB) : DB :=
  let rows := db.cashouts.map (fun r => if r.id = reqId then { r with status := st } else r)
  { db with cashouts := rows }

/-- `WalletService.processWithdrawal`; the external disburser's outcome
is the `sendSucceeds` parameter.  On failure the request is marked
rejected, a compensating `bet_won` credit of the held amount is
appended, and the error is surfaced to the caller. -/
def processWithdrawal (db : DB) (requestId : Nat) (sendSucceeds : Bool) :
    DB × Except Err Unit :=
  match findCashout db requestId with
  | none => (db, .error (.notFound "Withdrawal request"))
  | some req =>
    if req.status ≠ CashOutStatus.pending then (db, .error .alreadyProcessed)
    else if sendSucceeds then
      (setCashoutStatus requestId .completed db, .ok ())
    else
      let db1 := setCashoutStatus requestId .rejected db
      let currentBalance := getUserBalances db1 req.userId
      let entry : LedgerEntry :=
        { userId := req.userId, currency := "chips", amount := req.amount,
          balanceBefore := currentBalance.totalChips,
          balanceAfter := currentBalance.totalChips + req.amount,
          txType := .betWon, refType := some .cashoutRequestRefund,
          refId := some requestId }
      ({ db1 with ledger := db1.ledger ++ [entry] }, .error .withdrawalFailed)

/-! ### Specification-side predicates and concrete fixtures -/

/-- Per-entry running-balance relation:
`balanceAfter == balanceBefore + signedAmount`, and the recorded
balance never negative. -/
def entryOk (e : LedgerEntry) : Prop :=
  e.balanceAfter = e.balanceBefore + e.amount ∧ 0 ≤ e.balanceAfter

/-- Every entry of a ledger satisfies the per-entry relation. -/
def ledgerOk (l : List LedgerEntry) : Prop :=
  ∀ e ∈ l, entryOk e

/-- Adjacent-entry chaining: each entry's `balanceBefore` equals the
previous entry's `balanceAfter` (checked over one user's chip entries
in creation order). -/
def chainOk : List LedgerEntry → Prop
  | [] => True
  | [_] => True
  | e1 :: e2 :: rest => e2.balanceBefore = e1.balanceAfter ∧ chainOk (e2 :: rest)

/-- Sum of the winning-side active stakes of an event. -/
def winningStakeSum (db : DB) (eid : Nat) (side : String) : ℚ :=
  (((activeEventBets db eid).filter
      (fun b => decide (b.choiceLetter = side))).map Bet.amount).sum

/-- Total pool over all choices of an event (step 2 of the resolve
algorithm). -/
def totalPoolOf (db : DB) (eid : Nat) : ℚ :=
  ((eventChoices db eid).map Choice.totalPool).sum

/-- Number of ledger entries crediting one payout row. -/
def payoutCredits (l : List LedgerEntry) (pid : Nat) : Nat :=
  (l.filter (fun e =>
    decide (e.refType = some RefType.eventPayout ∧ e.refId = some pid))).length

/-- Cumulative effect of the distribution loop's status updates. -/
def completeAll (pids : List Nat) (q : Payout) : Payout :=
  if q.id ∈ pids then { q with status := .completed } else q

/-- An empty store. -/
def emptyDB : DB := ⟨[], [], [], [], [], [], 1⟩

/-- An active two-choice event (id 7, rake 1%), used by the fixtures. -/
def evActive7 : Event :=
  { id := 7, status := .active, lockTime := none, winningSide := none,
    creatorCommission := 1 / 100 }

/-- User 1 holds a single 100-chip deposit; event 7 is active with
empty pools. -/
def db100 : DB :=
  { events := [evActive7],
    choices := [⟨7, "A", 0⟩, ⟨7, "B", 0⟩],
    bets := [],
    ledger := [⟨1, "chips", 100, 0, 100, .deposit, none, none⟩],
    payouts := [], cashouts := [], nextId := 10 }

/-- Fixture reached by running deposit 100, bet 60, deposit 10 from an
event-only store. -/
def chainBase : DB :=
  { events := [evActive7],
    choices := [⟨7, "A", 0⟩, ⟨7, "B", 0⟩],
    bets := [], ledger := [], payouts := [], cashouts := [], nextId := 10 }

/-- The store after deposit 100 → bet 60 → deposit 10 by user 1. -/
def chainDB : DB :=
  (depositUSDC (placeBet (depositUSDC chainBase 1 100).1 0 1 7 "A" 60).1 1 10).1

/-- User 1 holds a single 5-chip deposit; event 7 is active. -/
def db5 : DB :=
  { events := [evActive7],
    choices := [⟨7, "A", 0⟩, ⟨7, "B", 0⟩],
    bets := [],
    ledger := [⟨1, "chips", 5, 0, 5, .deposit, none, none⟩],
    payouts := [], cashouts := [], nextId := 10 }

/-- The Coin Flip scenario: rake 1%, user 1 bets 1000 on A, user 2
bets 500 on B. -/
def coinDB : DB :=
  { events := [evActive7],
    choices := [⟨7, "A", 1000⟩, ⟨7, "B", 500⟩],
    bets := [⟨1, 7, 1, "A", 1000, .active⟩, ⟨2, 7, 2, "B", 500, .active⟩],
    ledger := [], payouts := [], cashouts := [], nextId := 10 }

/-- A degenerate event: the winning side A has an empty pool; the only
active bet (user 2, 500) is on B. -/
def degenDB : DB :=
  { events := [evActive7],
    choices := [⟨7, "A", 0⟩, ⟨7, "B", 500⟩],
    bets := [⟨2, 7, 2, "B", 500, .active⟩],
    ledger := [], payouts := [], cashouts := [], nextId := 10 }

/-- User 1 holds 50 won chips. -/
def dbWon : DB :=
  { events := [], choices := [], bets := [],
    ledger := [⟨1, "chips", 50, 0, 50, .betWon, none, none⟩],
    payouts := [], cashouts := [], nextId := 3 }

/-- A completed event 7 with one pending 250-chip payout (row id 4)
for user 1. -/
def dbPay : DB :=
  { events := [{ id := 7, status := .completed, lockTime := none,
                 winningSide := some "A", creatorCommission := 1 / 100 }],
    choices := [], bets := [], ledger := [],
    payouts := [⟨4, 7, 1, 250, .pending⟩], cashouts := [], nextId := 10 }

/-- An event in the `paid_out` state. -/
def paidOutDB : DB :=
  { events := [{ id := 7, status := .paidOut, lockTime := none,
                 winningSide := some "A", creatorCommission := 1 / 100 }],
    choices := [], bets := [], ledger := [], payouts := [], cashouts := [],
    nextId := 10 }

/-- An event in the `locked` state. -/
def lockedDB : DB :=
  { events := [{ id := 7, status := .locked, lockTime := none,
                 winningSide := none, creatorCommission := 1 / 100 }],
    choices := [], bets := [], ledger := [], payouts := [], cashouts := [],
    nextId := 10 }

/-! ### Helper lemmas -/

lemma wonChips_def (db : DB) (u : Nat) :
    (getUserBalances db u).wonChips = max 0 (rawBuckets db u).w := rfl

lemma totalChips_def (db : DB) (u : Nat) :
    (getUserBalances db u).totalChips =
      max 0 (rawBuckets db u).p + max 0 (rawBuckets db u).w + max 0 (rawBuckets db u).f := rfl

lemma totalChips_nonneg (db : DB) (u : Nat) : 0 ≤ (getUserBalances db u).totalChips := by
  rw [totalChips_def]
  exact add_nonneg (add_nonneg (le_max_left 0 _) (le_max_left 0 _)) (le_max_left 0 _)

lemma wonChips_le_totalChips (db : DB) (u : Nat) :
    (getUserBalances db u).wonChips ≤ (getUserBalances db u).totalChips := by
  rw [wonChips_def, totalChips_def]
  have h1 : max 0 (rawBuckets db u).w ≤ max 0 (rawBuckets db u).p + max 0 (rawBuckets db u).w :=
    le_add_of_nonneg_left (le_max_left 0 _)
  exact le_trans h1 (le_add_of_nonneg_right (le_max_left 0 _))

lemma ledgerOk_append {l : List LedgerEntry} {e : LedgerEntry}
    (hl : ledgerOk l) (he : entryOk e) : ledgerOk (l ++ [e]) := by
  intro x hx
  rcases List.mem_append.1 hx with h | h
  · exact hl x h
  · rw [List.mem_singleton.1 h]
    exact he

lemma depositUSDC_preserves (db : DB) (u : Nat) (a : ℚ) (ha : 0 ≤ a)
    (h : ledgerOk db.ledger) : ledgerOk ((depositUSDC db u a).1).ledger := by
  refine ledgerOk_append h ⟨rfl, ?_⟩
  exact add_nonneg (totalChips_nonneg db u) ha

lemma placeBet_preserves (db : DB) (now u eid : Nat) (side : String) (a : ℚ)
    (h : ledgerOk db.ledger) : ledgerOk ((placeBet db now u eid side a).1).ledger := by
  unfold placeBet
  dsimp only
  split
  · exact h
  · split
    · exact h
    · split
      · exact h
      · split
        · exact h
        · split
          · next hlt => exact h
          · next hlt =>
              refine ledgerOk_append h ⟨(sub_eq_add_neg _ _), ?_⟩
              exact sub_nonneg.2 (not_lt.1 hlt)

lemma distribute_fold_preserves (snapshot : DB) (ps : List Payout)
    (hps : ∀ p ∈ ps, 0 ≤ p.payoutAmount) :
    ∀ acc : DB, ledgerOk acc.ledger →
      ledgerOk ((ps.foldl (creditPayout snapshot) acc).ledger) := by
  induction ps with
  | nil => intro acc hacc; exact hacc
  | cons p ps ih =>
      intro acc hacc
      rw [List.foldl_cons]
      refine ih (fun q hq => hps q (List.mem_cons_of_mem p hq)) _ ?_
      refine ledgerOk_append hacc ⟨rfl, ?_⟩
      exact add_nonneg (totalChips_nonneg snapshot p.userId)
        (hps p (List.mem_cons_self p ps))

lemma distributePayouts_preserves (db : DB) (eid : Nat)
    (hpos : ∀ p ∈ db.payouts, 0 ≤ p.payoutAmount)
    (h : ledgerOk db.ledger) : ledgerOk ((distributePayouts db eid).1).ledger := by
  unfold distributePayouts
  dsimp only
  split
  · exact h
  · refine distribute_fold_preserves db _ ?_ db h
    intro p hp
    exact hpos p (List.mem_of_mem_filter hp)

lemma refund_fold_preserves (snapshot : DB) (bs : List Bet)
    (hbs : ∀ b ∈ bs, 0 ≤ b.amount) :
    ∀ acc : DB, ledgerOk acc.ledger →
      ledgerOk ((bs.foldl (creditRefund snapshot) acc).ledger) := by
  induction bs with
  | nil => intro acc hacc; exact hacc
  | cons b bs ih =>
      intro acc hacc
      rw [List.foldl_cons]
      refine ih (fun q hq => hbs q (List.mem_cons_of_mem b hq)) _ ?_
      refine ledgerOk_append hacc ⟨rfl, ?_⟩
      exact add_nonneg (totalChips_nonneg snapshot b.userId)
        (hbs b (List.mem_cons_self b bs))

lemma refundEvent_preserves (db : DB) (eid : Nat)
    (hpos : ∀ b ∈ db.bets, 0 ≤ b.amount)
    (h : ledgerOk db.ledger) : ledgerOk ((refundEvent db eid).1).ledger := by
  unfold refundEvent
  dsimp only
  split
  · exact h
  · split
    · exact h
    · split
      · exact h
      · refine refund_fold_preserves db _ ?_ db h
        intro b hb
        exact hpos b (List.mem_of_mem_filter hb)

lemma requestWithdrawal_preserves (db : DB) (u : Nat) (a : ℚ)
    (h : ledgerOk db.ledger) : ledgerOk ((requestWithdrawal db u a).1).ledger := by
  unfold requestWithdrawal
  dsimp only
  split
  · exact h
  · next hlt =>
      refine ledgerOk_append h ⟨(sub_eq_add_neg _ _), ?_⟩
      have h1 : a ≤ (getUserBalances db u).wonChips := not_lt.1 hlt
      have h2 := wonChips_le_totalChips db u
      have h3 : (getUserBalances { db with
          cashouts := db.cashouts ++ [⟨db.nextId, u, a, CashOutStatus.pending⟩],
          nextId := db.nextId + 1 } u) = getUserBalances db u := rfl
      rw [h3]
      exact sub_nonneg.2 (le_trans h1 h2)

lemma processWithdrawal_preserves (db : DB) (rid : Nat) (ok : Bool)
    (hpos : ∀ r ∈ db.cashouts, 0 ≤ r.amount)
    (h : ledgerOk db.ledger) : ledgerOk ((processWithdrawal db rid ok).1).ledger := by
  unfold processWithdrawal
  dsimp only
  split
  · exact h
  · next req hreq =>
      split
      · exact h
      · split
        · exact h
        · refine ledgerOk_append h ⟨rfl, ?_⟩
          have hr : 0 ≤ req.amount := hpos req (List.mem_of_find?_eq_some hreq)
          exact add_nonneg (totalChips_nonneg _ _) hr

/-! ### C1 -/

/-- **C1** (corrected).  Every ledger entry appended by deposit, bet
placement, payout distribution, event refund, withdrawal hold or
withdrawal compensation satisfies
`balanceAfter == balanceBefore + signedAmount` with a non-negative
recorded balance, so the per-entry running-balance relation is an
invariant of the store under all six appending operations (credits need
the credited row amounts non-negative).  The cross-entry chaining half
of the claim, `balanceBefore[n+1] == balanceAfter[n]`, is refuted by
`c1_chain_counterexample`. -/
theorem c1_entry_consistency_preserved :
    (∀ db u a, 0 ≤ a → ledgerOk db.ledger → ledgerOk ((depositUSDC db u a).1).ledger) ∧
    (∀ db now u eid side a, ledgerOk db.ledger →
      ledgerOk ((placeBet db now u eid side a).1).ledger) ∧
    (∀ db eid, (∀ p ∈ db.payouts, 0 ≤ p.payoutAmount) → ledgerOk db.ledger →
      ledgerOk ((distributePayouts db eid).1).ledger) ∧
    (∀ db eid, (∀ b ∈ db.bets, 0 ≤ b.amount) → ledgerOk db.ledger →
      ledgerOk ((refundEvent db eid).1).ledger) ∧
    (∀ db u a, ledgerOk db.ledger → ledgerOk ((requestWithdrawal db u a).1).ledger) ∧
    (∀ db rid ok, (∀ r ∈ db.cashouts, 0 ≤ r.amount) → ledgerOk db.ledger →
      ledgerOk ((processWithdrawal db rid ok).1).ledger) :=
  ⟨fun db u a ha h => depositUSDC_preserves db u a ha h,
   fun db now u eid side a h => placeBet_preserves db now u eid side a h,
   fun db eid hp h => distributePayouts_preserves db eid hp h,
   fun db eid hb h => refundEvent_preserves db eid hb h,
   fun db u a h => requestWithdrawal_preserves db u a h,
   fun db rid ok hr h => processWithdrawal_preserves db rid ok hr h⟩

/-- Witness for C1: the invariant instantiated on a deposit into the
empty store and on a bet placed from `db100`. -/
theorem c1_entry_consistency_witness :
    ledgerOk ((depositUSDC emptyDB 1 100).1).ledger ∧
    ledgerOk ((placeBet db100 0 1 7 "A" 60).1).ledger := by
  have h100 : ledgerOk db100.ledger := by
    intro e he
    rw [List.mem_singleton.1 he]
    exact ⟨by norm_num, by norm_num⟩
  constructor
  · exact c1_entry_consistency_preserved.1 emptyDB 1 100 (by norm_num)
      (fun e he => absurd he (List.not_mem_nil e))
  · exact c1_entry_consistency_preserved.2.1 db100 0 1 7 "A" 60 h100

/-- Counterexample for C1: running deposit 100 → bet 60 → deposit 10
for the same user leaves a ledger whose third entry has
`balanceBefore = 100` (the recomputed bucket total, which ignores the
`bet_placed` debit) while the second entry has `balanceAfter = 40`, so
the chaining invariant claimed for the operations fails. -/
theorem c1_chain_counterexample : ¬ chainOk chainDB.ledger := by
  have h : chainDB.ledger =
      [⟨1, "chips", 100, 0, 100, .deposit, none, none⟩,
       ⟨1, "chips", -60, 100, 40, .betPlaced, some .eventBet, some 10⟩,
       ⟨1, "chips", 10, 100, 110, .deposit, none, none⟩] := by
    norm_num [chainDB, chainBase, depositUSDC, placeBet, findEvent, findChoice, lockCheck,
      getUserBalances, rawBuckets, userChipEntries, activeBetSum, classifyTx, evActive7,
      updChoicePool]
  rw [h]
  simp only [chainOk, LedgerEntry.mk.injEq]
  norm_num

/-! ### C2 -/

lemma sum_payout_rows (dp wp : ℚ) (l : List Bet) :
    (List.map PayoutRow.payout (List.map (fun b =>
      ({ userId := b.userId, betId := b.id, betAmount := b.amount,
         payout := dp * (b.amount / wp),
         profit := dp * (b.amount / wp) - b.amount } : PayoutRow)) l)).sum
      = dp * (((l.map Bet.amount).sum) / wp) := by
  induction l with
  | nil => simp
  | cons b l ih =>
      simp only [List.map_cons, List.sum_cons, ih]
      rw [add_div, mul_add]

lemma calculatePayouts_conservation (db : DB) (eid : Nat) (side : String)
    (ev : Event) (wc : Choice) (calcP : PayoutCalc)
    (hev : findEvent db eid = some ev)
    (hwc : (eventChoices db eid).find? (fun c => decide (c.choiceLetter = side)) = some wc)
    (hne : wc.totalPool ≠ 0)
    (hsum : winningStakeSum db eid side = wc.totalPool)
    (hcalc : calculatePayouts db eid side = .ok calcP) :
    calcP.eventRakeAmount = some (totalPoolOf db eid * ev.creatorCommission) ∧
    calcP.prizePoolRake =
      (totalPoolOf db eid - totalPoolOf db eid * ev.creatorCommission) *
        COMPANY_PRIZE_POOL_RAKE ∧
    calcP.totalPaid =
      totalPoolOf db eid - totalPoolOf db eid * ev.creatorCommission -
      (totalPoolOf db eid - totalPoolOf db eid * ev.creatorCommission) *
        COMPANY_PRIZE_POOL_RAKE ∧
    totalPoolOf db eid * ev.creatorCommission + calcP.prizePoolRake + calcP.totalPaid =
      totalPoolOf db eid := by
  unfold calculatePayouts at hcalc
  rw [hev, hwc] at hcalc
  dsimp only at hcalc
  rw [if_neg hne] at hcalc
  have hc := Except.ok.inj hcalc
  subst hc
  unfold totalPoolOf
  unfold winningStakeSum at hsum
  dsimp only
  have htp : (List.map PayoutRow.payout (List.map (fun b =>
      ({ userId := b.userId, betId := b.id, betAmount := b.amount,
         payout := ((List.map Choice.totalPool (eventChoices db eid)).sum -
             (List.map Choice.totalPool (eventChoices db eid)).sum * ev.creatorCommission -
             ((List.map Choice.totalPool (eventChoices db eid)).sum -
               (List.map Choice.totalPool (eventChoices db eid)).sum * ev.creatorCommission) *
               COMPANY_PRIZE_POOL_RAKE) * (b.amount / wc.totalPool),
         profit := ((List.map Choice.totalPool (eventChoices db eid)).sum -
             (List.map Choice.totalPool (eventChoices db eid)).sum * ev.creatorCommission -
             ((List.map Choice.totalPool (eventChoices db eid)).sum -
               (List.map Choice.totalPool (eventChoices db eid)).sum * ev.creatorCommission) *
               COMPANY_PRIZE_POOL_RAKE) * (b.amount / wc.totalPool) - b.amount } : PayoutRow))
      (List.filter (fun b => decide (b.choiceLetter = side)) (activeEventBets db eid)))).sum
      = ((List.map Choice.totalPool (eventChoices db eid)).sum -
          (List.map Choice.totalPool (eventChoices db eid)).sum * ev.creatorCommission -
          ((List.map Choice.totalPool (eventChoices db eid)).sum -
            (List.map Choice.totalPool (eventChoices db eid)).sum * ev.creatorCommission) *
            COMPANY_PRIZE_POOL_RAKE) := by
    rw [sum_payout_rows, hsum, div_self hne, mul_one]
  refine ⟨rfl, rfl, htp, ?_⟩
  rw [htp]
  ring

lemma coin_calc_eq :
    calculatePayouts coinDB 7 "A" =
      .ok { payouts := [⟨1, 1, 1000, 11583/8, 3583/8⟩], refunds := [],
            totalPaid := 11583/8, eventRakeAmount := some 15, prizePoolRake := 297/8 } := by
  norm_num [calculatePayouts, findEvent, eventChoices, activeEventBets, coinDB,
    evActive7, COMPANY_PRIZE_POOL_RAKE]
  exact ⟨by decide, by simp⟩

lemma coin_resolve_facts :
    (resolveEvent coinDB 7 "A").2 =
      .ok { winningSide := "A", payoutsCount := 1, totalPayout := 11583/8,
            eventRake := some 15, prizePoolRake := 297/8 } ∧
    (resolveEvent coinDB 7 "A").1.payouts.map
        (fun p => (p.userId, p.payoutAmount, p.status)) =
      [(1, 11583/8, PayoutStatus.pending)] ∧
    (resolveEvent coinDB 7 "A").1.bets.map (fun b => (b.userId, b.status)) =
      [(1, BetStatus.won), (2, BetStatus.lost)] := by
  rw [resolveEvent]
  rw [show findEvent coinDB 7 = some evActive7 from rfl]
  split
  · next heq => exact Option.noConfusion heq
  · next ev heq =>
      injection heq with h
      subst h
      rw [if_neg (by decide), if_neg (by decide), coin_calc_eq]
      refine ⟨?_, ?_, ?_⟩
      · norm_num [coinDB, evActive7]
      · norm_num [coinDB, evActive7]
      · norm_num [coinDB, evActive7, markBetsWon, markBetsLost, markRefunded]
        decide

/-- **C2** (confirmed).  For a resolve with `winningPool > 0`:
`eventRakeAmount = totalPool * rakeFraction`, the prize-pool rake is
2.5% of the remainder, the sum of all payouts (each winning bet paid
`distributionPool * amount / winningPool`) equals `distributionPool`
exactly, and `eventRakeAmount + prizePoolRakeAmount + distributionPool
== totalPool`.  On the Coin Flip instance the computed values are
totalPool 1500, eventRake 15, prizePoolRake 37.125 = 297/8,
distributionPool = payout of user 1 = 1447.875 = 11583/8, and user 2's
bet is marked lost with no payout row. -/
theorem c2_parimutuel_conservation :
    (∀ db eid side ev wc calcP,
      findEvent db eid = some ev →
      (eventChoices db eid).find? (fun c => decide (c.choiceLetter = side)) = some wc →
      wc.totalPool ≠ 0 →
      winningStakeSum db eid side = wc.totalPool →
      calculatePayouts db eid side = .ok calcP →
      calcP.eventRakeAmount = some (totalPoolOf db eid * ev.creatorCommission) ∧
      calcP.prizePoolRake =
        (totalPoolOf db eid - totalPoolOf db eid * ev.creatorCommission) *
          COMPANY_PRIZE_POOL_RAKE ∧
      calcP.totalPaid =
        totalPoolOf db eid - totalPoolOf db eid * ev.creatorCommission -
        (totalPoolOf db eid - totalPoolOf db eid * ev.creatorCommission) *
          COMPANY_PRIZE_POOL_RAKE ∧
      totalPoolOf db eid * ev.creatorCommission + calcP.prizePoolRake + calcP.totalPaid =
        totalPoolOf db eid) ∧
    totalPoolOf coinDB 7 = 1500 ∧
    (resolveEvent coinDB 7 "A").2 =
      .ok { winningSide := "A", payoutsCount := 1, totalPayout := 11583/8,
            eventRake := some 15, prizePoolRake := 297/8 } ∧
    (resolveEvent coinDB 7 "A").1.payouts.map
        (fun p => (p.userId, p.payoutAmount, p.status)) =
      [(1, 11583/8, PayoutStatus.pending)] ∧
    (resolveEvent coinDB 7 "A").1.bets.map (fun b => (b.userId, b.status)) =
      [(1, BetStatus.won), (2, BetStatus.lost)] := by
  refine ⟨?_, ?_, coin_resolve_facts.1, coin_resolve_facts.2.1, coin_resolve_facts.2.2⟩
  · intro db eid side ev wc calcP hev hwc hne hsum hcalc
    exact calculatePayouts_conservation db eid side ev wc calcP hev hwc hne hsum hcalc
  · norm_num [totalPoolOf, eventChoices, coinDB]

/-- Witness for C2: the conservation statement instantiated on the Coin
Flip store. -/
theorem c2_parimutuel_conservation_witness :
    (calculatePayouts coinDB 7 "A" =
      .ok { payouts := [⟨1, 1, 1000, 11583/8, 3583/8⟩], refunds := [],
            totalPaid := 11583/8, eventRakeAmount := some 15, prizePoolRake := 297/8 }) ∧
    ({ payouts := [⟨1, 1, 1000, 11583/8, 3583/8⟩], refunds := [],
       totalPaid := 11583/8, eventRakeAmount := some 15,
       prizePoolRake := 297/8 } : PayoutCalc).eventRakeAmount =
      some (totalPoolOf coinDB 7 * evActive7.creatorCommission) ∧
    totalPoolOf coinDB 7 * evActive7.creatorCommission +
      ({ payouts := [⟨1, 1, 1000, 11583/8, 3583/8⟩], refunds := [],
         totalPaid := 11583/8, eventRakeAmount := some 15,
         prizePoolRake := 297/8 } : PayoutCalc).prizePoolRake +
      ({ payouts := [⟨1, 1, 1000, 11583/8, 3583/8⟩], refunds := [],
         totalPaid := 11583/8, eventRakeAmount := some 15,
         prizePoolRake := 297/8 } : PayoutCalc).totalPaid = totalPoolOf coinDB 7 := by
  have h := c2_parimutuel_conservation.1 coinDB 7 "A" evActive7 ⟨7, "A", 1000⟩
    { payouts := [⟨1, 1, 1000, 11583/8, 3583/8⟩], refunds := [],
      totalPaid := 11583/8, eventRakeAmount := some 15, prizePoolRake := 297/8 }
    rfl rfl (by norm_num)
    (by norm_num [winningStakeSum, activeEventBets, coinDB]; simp)
    coin_calc_eq
  exact ⟨coin_calc_eq, h.1, h.2.2.2⟩

/-! ### C3 -/

lemma foldl_map_comm {α β : Type} (g : α → β → β) (l : List β) (rs : List α) :
    rs.foldl (fun bs r => bs.map (g r)) l =
      l.map (fun b => rs.foldl (fun x r => g r x) b) := by
  induction rs generalizing l with
  | nil => simp
  | cons r rs ih =>
      rw [List.foldl_cons, ih, List.map_map]
      rfl

lemma foldl_markRefunded (rs : List RefundRow) (b : Bet) :
    rs.foldl (fun x r => markRefunded r.betId x) b =
      if b.id ∈ rs.map RefundRow.betId then { b with status := .refunded } else b := by
  induction rs generalizing b with
  | nil => simp
  | cons r rs ih =>
      rw [List.foldl_cons]
      by_cases h : b.id = r.betId
      · have hmr : markRefunded r.betId b = { b with status := .refunded } := by
          simp [markRefunded, h]
        rw [hmr, ih]
        have hr : b.id ∈ List.map RefundRow.betId (r :: rs) := by simp [h]
        rw [if_pos hr]
        split <;> rfl
      · rw [show markRefunded r.betId b = b from by simp [markRefunded, h], ih]
        simp [List.map_cons, List.mem_cons, h]

lemma refunded_overwrite (eid : Nat) (side : String) (b : Bet) :
    { markBetsLost eid side (markBetsWon eid side b) with status := BetStatus.refunded } =
      { b with status := BetStatus.refunded } := by
  unfold markBetsWon markBetsLost
  split <;> split <;> rfl

lemma markWonLost_id (eid : Nat) (side : String) (b : Bet) :
    (markBetsLost eid side (markBetsWon eid side b)).id = b.id := by
  unfold markBetsWon markBetsLost
  split <;> split <;> rfl

lemma calculatePayouts_degenerate (db : DB) (eid : Nat) (side : String)
    (ev : Event) (wc : Choice)
    (hev : findEvent db eid = some ev)
    (hwc : (eventChoices db eid).find? (fun c => decide (c.choiceLetter = side)) = some wc)
    (hz : wc.totalPool = 0) :
    calculatePayouts db eid side = .ok
      { payouts := [],
        refunds := (activeEventBets db eid).map (fun b => ⟨b.userId, b.amount, b.id⟩),
        totalPaid := 0, eventRakeAmount := none, prizePoolRake := 0 } := by
  unfold calculatePayouts
  rw [hev, hwc]
  dsimp only
  rw [if_pos hz]

lemma resolveEvent_degenerate (db : DB) (eid : Nat) (side : String)
    (ev : Event) (wc : Choice)
    (hev : findEvent db eid = some ev)
    (hst : ev.status = EventStatus.locked ∨ ev.status = EventStatus.active)
    (hwc : (eventChoices db eid).find? (fun c => decide (c.choiceLetter = side)) = some wc)
    (hz : wc.totalPool = 0) :
    (resolveEvent db eid side).2 = .ok ⟨side, 0, 0, none, 0⟩ ∧
    (resolveEvent db eid side).1.payouts = db.payouts ∧
    (resolveEvent db eid side).1.ledger = db.ledger ∧
    (resolveEvent db eid side).1.events = db.events.map (setEventCompleted eid side) ∧
    ∀ b ∈ db.bets, b.eventId = eid → b.status = BetStatus.active →
      { b with status := BetStatus.refunded } ∈ (resolveEvent db eid side).1.bets := by
  have hng1 : ¬(ev.status = EventStatus.completed ∨ ev.status = EventStatus.paidOut) := by
    rcases hst with h | h <;> simp [h]
  have hng2 : ¬(ev.status ≠ EventStatus.locked ∧ ev.status ≠ EventStatus.active) := by
    rcases hst with h | h <;> simp [h]
  unfold resolveEvent
  rw [hev]
  dsimp only
  rw [if_neg hng1, if_neg hng2,
      calculatePayouts_degenerate db eid side ev wc hev hwc hz]
  dsimp only
  refine ⟨rfl, by simp, rfl, rfl, ?_⟩
  intro b hb hbe hba
  rw [foldl_map_comm, List.map_map, List.map_map]
  have hmem : b ∈ activeEventBets db eid :=
    List.mem_filter.2 ⟨hb, by simp [hbe, hba]⟩
  have himg := List.mem_map_of_mem
    ((fun x => ((activeEventBets db eid).map
        (fun b => (⟨b.userId, b.amount, b.id⟩ : RefundRow))).foldl
          (fun x r => markRefunded r.betId x) x) ∘
      markBetsLost eid side ∘ markBetsWon eid side) hb
  have heq : ((fun x => ((activeEventBets db eid).map
        (fun b => (⟨b.userId, b.amount, b.id⟩ : RefundRow))).foldl
          (fun x r => markRefunded r.betId x) x) ∘
      markBetsLost eid side ∘ markBetsWon eid side) b =
      { b with status := BetStatus.refunded } := by
    show (((activeEventBets db eid).map
        (fun b => (⟨b.userId, b.amount, b.id⟩ : RefundRow))).foldl
          (fun x r => markRefunded r.betId x)
          (markBetsLost eid side (markBetsWon eid side b)))
      = { b with status := BetStatus.refunded }
    rw [foldl_markRefunded, List.map_map]
    rw [if_pos ?hin]
    · exact refunded_overwrite eid side b
    · rw [markWonLost_id]
      have : (RefundRow.betId ∘ fun b : Bet => (⟨b.userId, b.amount, b.id⟩ : RefundRow)) =
          Bet.id := rfl
      rw [this]
      exact List.mem_map_of_mem Bet.id hmem
  rw [heq] at himg
  exact himg

/-- **C3** (confirmed).  If the winning side's pool is zero, resolution
returns a calculation with zero payout rows, no rake (`eventRakeAmount`
absent, `prizePoolRake = 0`) and one refund per active bet carrying the
bet's full stake; the commit marks the event completed while every
previously-active bet of the event ends up `refunded` and no payout row
is created. -/
theorem c3_degenerate_refund :
    ∀ db eid side ev wc,
      findEvent db eid = some ev →
      (ev.status = EventStatus.locked ∨ ev.status = EventStatus.active) →
      (eventChoices db eid).find? (fun c => decide (c.choiceLetter = side)) = some wc →
      wc.totalPool = 0 →
      calculatePayouts db eid side = .ok
        { payouts := [],
          refunds := (activeEventBets db eid).map (fun b => ⟨b.userId, b.amount, b.id⟩),
          totalPaid := 0, eventRakeAmount := none, prizePoolRake := 0 } ∧
      (resolveEvent db eid side).2 = .ok ⟨side, 0, 0, none, 0⟩ ∧
      (resolveEvent db eid side).1.payouts = db.payouts ∧
      ∀ b ∈ db.bets, b.eventId = eid → b.status = BetStatus.active →
        { b with status := BetStatus.refunded } ∈ (resolveEvent db eid side).1.bets := by
  intro db eid side ev wc hev hst hwc hz
  have h := resolveEvent_degenerate db eid side ev wc hev hst hwc hz
  exact ⟨calculatePayouts_degenerate db eid side ev wc hev hwc hz,
    h.1, h.2.1, h.2.2.2.2⟩

/-- Witness for C3: the degenerate resolution on `degenDB` (winning
side A has an empty pool; user 2's 500-chip bet on B is active). -/
theorem c3_degenerate_refund_witness :
    calculatePayouts degenDB 7 "A" = .ok
      { payouts := [],
        refunds := (activeEventBets degenDB 7).map (fun b => ⟨b.userId, b.amount, b.id⟩),
        totalPaid := 0, eventRakeAmount := none, prizePoolRake := 0 } ∧
    (resolveEvent degenDB 7 "A").2 = .ok ⟨"A", 0, 0, none, 0⟩ ∧
    (resolveEvent degenDB 7 "A").1.payouts = degenDB.payouts ∧
    { (⟨2, 7, 2, "B", 500, .active⟩ : Bet) with status := BetStatus.refunded } ∈
      (resolveEvent degenDB 7 "A").1.bets := by
  have h := c3_degenerate_refund degenDB 7 "A" evActive7 ⟨7, "A", 0⟩ rfl (Or.inr rfl) rfl rfl
  exact ⟨h.1, h.2.1, h.2.2.1,
    h.2.2.2 ⟨2, 7, 2, "B", 500, .active⟩ (by simp [degenDB]) rfl rfl⟩

/-! ### C4 -/

/-- Counterexample for C4: the claim says moving a status backwards
fails with `InvalidStateTransition` and does not mutate state, but
`updateEvent` on a `locked` event accepts `status: active` (the update
schema admits every status) and writes it. -/
theorem c4_backwards_update_counterexample :
    (updateEvent lockedDB 7 ⟨none, some EventStatus.active⟩).2 = .ok () ∧
    findEvent (updateEvent lockedDB 7 ⟨none, some EventStatus.active⟩).1 7 =
      some { id := 7, status := EventStatus.active, lockTime := none,
             winningSide := none, creatorCommission := 1 / 100 } := by
  norm_num [updateEvent, findEvent, lockedDB, applyUpdate]
  rw [if_neg (by decide)]
  norm_num

/-- **C4** (corrected).  The status gates that do exist: `updateEvent`
rejects events already `completed`/`paid_out`; `cancelEvent` rejects
`completed`/`paid_out`/`cancelled` events; `resolveEvent` rejects
already-resolved events and events that are neither `locked` nor
`active` — each such rejection an error with the store unchanged.
`updateEvent` on any other state accepts arbitrary status moves,
backwards included (see the counterexample), and `distributePayouts`
checks no event status at all. -/
theorem c4_illegal_transitions_guarded :
    (∀ db eid ev inp, findEvent db eid = some ev →
      (ev.status = EventStatus.completed ∨ ev.status = EventStatus.paidOut) →
      updateEvent db eid inp = (db, .error .cannotUpdate)) ∧
    (∀ db eid ev, findEvent db eid = some ev →
      (ev.status = EventStatus.completed ∨ ev.status = EventStatus.paidOut ∨
        ev.status = EventStatus.cancelled) →
      cancelEvent db eid = (db, .error .cannotCancel)) ∧
    (∀ db eid side ev, findEvent db eid = some ev →
      (ev.status = EventStatus.completed ∨ ev.status = EventStatus.paidOut) →
      resolveEvent db eid side = (db, .error .alreadyResolved)) ∧
    (∀ db eid side ev, findEvent db eid = some ev →
      (ev.status = EventStatus.draft ∨ ev.status = EventStatus.pending ∨
        ev.status = EventStatus.cancelled) →
      resolveEvent db eid side = (db, .error .mustBeLockedOrActive)) := by
  refine ⟨?_, ?_, ?_, ?_⟩
  · intro db eid ev inp hev hst
    unfold updateEvent
    rw [hev]
    dsimp only
    rw [if_pos hst]
  · intro db eid ev hev hst
    unfold cancelEvent
    rw [hev]
    dsimp only
    rw [if_pos hst]
  · intro db eid side ev hev hst
    unfold resolveEvent
    rw [hev]
    dsimp only
    rw [if_pos hst]
  · intro db eid side ev hev hst
    unfold resolveEvent
    rw [hev]
    dsimp only
    rw [if_neg (by rcases hst with h | h | h <;> simp [h]),
        if_pos (by rcases hst with h | h | h <;> simp [h])]

/-- Witness for C4: resolving the already-completed event of `dbPay`
and cancelling the paid-out event of `paidOutDB` both fail without
mutating the store. -/
theorem c4_illegal_transitions_witness :
    resolveEvent dbPay 7 "A" = (dbPay, .error .alreadyResolved) ∧
    cancelEvent paidOutDB 7 = (paidOutDB, .error .cannotCancel) ∧
    updateEvent dbPay 7 ⟨none, some EventStatus.draft⟩ =
      (dbPay, .error .cannotUpdate) := by
  refine ⟨?_, ?_, ?_⟩
  · exact c4_illegal_transitions_guarded.2.2.1 dbPay 7 "A"
      { id := 7, status := .completed, lockTime := none,
        winningSide := some "A", creatorCommission := 1 / 100 } rfl (Or.inl rfl)
  · exact c4_illegal_transitions_guarded.2.1 paidOutDB 7
      { id := 7, status := .paidOut, lockTime := none,
        winningSide := some "A", creatorCommission := 1 / 100 } rfl (Or.inr (Or.inl rfl))
  · exact c4_illegal_transitions_guarded.1 dbPay 7
      { id := 7, status := .completed, lockTime := none,
        winningSide := some "A", creatorCommission := 1 / 100 }
      ⟨none, some EventStatus.draft⟩ rfl (Or.inl rfl)

/-! ### C5 -/

lemma ne_nil_isEmpty_false {α : Type} {l : List α} (h : l ≠ []) : l.isEmpty = false := by
  cases l with
  | nil => exact absurd rfl h
  | cons a l => rfl

lemma completeAll_cons (pid : Nat) (pids : List Nat) (q : Payout) :
    completeAll pids (completeById pid q) = completeAll (pid :: pids) q := by
  by_cases h : q.id = pid
  · have h1 : completeById pid q = { q with status := .completed } := by
      simp [completeById, h]
    rw [h1]
    unfold completeAll
    by_cases h2 : q.id ∈ pids <;> simp [h, h2]
  · have h1 : completeById pid q = q := by simp [completeById, h]
    rw [h1]
    unfold completeAll
    by_cases h2 : q.id ∈ pids <;> simp [h, h2, List.mem_cons]

lemma distribute_fold_char (snapshot : DB) (ps : List Payout) (acc : DB) :
    ps.foldl (creditPayout snapshot) acc =
      { acc with
        ledger := acc.ledger ++ ps.map (payoutEntry snapshot),
        payouts := acc.payouts.map (completeAll (ps.map Payout.id)) } := by
  induction ps generalizing acc with
  | nil =>
      have h : acc.payouts.map (completeAll []) = acc.payouts := by
        rw [show acc.payouts.map (completeAll []) = acc.payouts.map id from
          List.map_congr_left (fun q _ => by simp [completeAll]), List.map_id]
      rw [List.foldl_nil, List.map_nil, List.append_nil, List.map_nil, h]
  | cons p ps ih =>
      rw [List.foldl_cons, ih]
      have hl : (creditPayout snapshot acc p).ledger ++ ps.map (payoutEntry snapshot) =
          acc.ledger ++ (p :: ps).map (payoutEntry snapshot) := by
        show (acc.ledger ++ [payoutEntry snapshot p]) ++ ps.map (payoutEntry snapshot) = _
        rw [List.append_assoc]
        rfl
      have hp : (creditPayout snapshot acc p).payouts.map
            (completeAll (ps.map Payout.id)) =
          acc.payouts.map (completeAll ((p :: ps).map Payout.id)) := by
        show (acc.payouts.map (completeById p.id)).map (completeAll (ps.map Payout.id)) = _
        rw [List.map_map]
        exact List.map_congr_left (fun q _ => completeAll_cons p.id (ps.map Payout.id) q)
      rw [hl, hp]
      rfl

lemma distributePayouts_run (db : DB) (eid : Nat) (hne : pendingPayouts db eid ≠ []) :
    distributePayouts db eid =
      ({ db with
          events := db.events.map (setEventPaidOut eid),
          ledger := db.ledger ++ (pendingPayouts db eid).map (payoutEntry db),
          payouts := db.payouts.map
            (completeAll ((pendingPayouts db eid).map Payout.id)) },
        .ok ((pendingPayouts db eid).map (fun p => (p.userId, p.payoutAmount)))) := by
  unfold distributePayouts
  dsimp only
  rw [ne_nil_isEmpty_false hne]
  rw [if_neg Bool.false_ne_true]
  rw [distribute_fold_char]

lemma payoutCredits_append (l1 l2 : List LedgerEntry) (pid : Nat) :
    payoutCredits (l1 ++ l2) pid = payoutCredits l1 pid + payoutCredits l2 pid := by
  simp [payoutCredits, List.filter_append]

lemma payoutCredits_entries (snapshot : DB) (ps : List Payout) (pid : Nat) :
    payoutCredits (ps.map (payoutEntry snapshot)) pid =
      (ps.filter (fun q => decide (q.id = pid))).length := by
  induction ps with
  | nil => rfl
  | cons p ps ih =>
      unfold payoutCredits at ih ⊢
      rw [List.map_cons, List.filter_cons, List.filter_cons]
      by_cases h : p.id = pid
      · rw [if_pos (by simp [payoutEntry, h]), if_pos (by simp [h])]
        rw [List.length_cons, List.length_cons, ih]
      · rw [if_neg (by simp [payoutEntry, h]), if_neg (by simp [h])]
        exact ih

lemma filter_id_length_one (ps : List Payout) (hnd : (ps.map Payout.id).Nodup)
    (p : Payout) (hp : p ∈ ps) :
    (ps.filter (fun q => decide (q.id = p.id))).length = 1 := by
  induction ps with
  | nil => cases hp
  | cons a ps ih =>
      rw [List.map_cons, List.nodup_cons] at hnd
      rcases List.mem_cons.1 hp with heq | hmem
      · subst heq
        rw [List.filter_cons]
        have hnone : ps.filter (fun q => decide (q.id = p.id)) = [] := by
          apply List.filter_eq_nil_iff.2
          intro q hq
          simp only [decide_eq_true_eq]
          intro hqe
          exact hnd.1 (hqe ▸ List.mem_map_of_mem Payout.id hq)
        simp [hnone]
      · rw [List.filter_cons]
        have hne : ¬(a.id = p.id) := by
          intro he
          exact hnd.1 (he ▸ List.mem_map_of_mem Payout.id hmem)
        simp [hne, ih hnd.2 hmem]

lemma pendingPayouts_complete (db : DB) (eid : Nat) (db2 : DB)
    (h : db2.payouts =
      db.payouts.map (completeAll ((pendingPayouts db eid).map Payout.id))) :
    pendingPayouts db2 eid = [] := by
  unfold pendingPayouts
  rw [h]
  apply List.filter_eq_nil_iff.2
  intro q hq
  rcases List.mem_map.1 hq with ⟨q0, hq0, rfl⟩
  by_cases hin : q0.id ∈ (pendingPayouts db eid).map Payout.id
  · simp [completeAll, hin]
  · simp only [completeAll, if_neg hin, decide_eq_true_eq, not_and]
    intro he hs
    refine hin (List.mem_map_of_mem Payout.id ?_)
    unfold pendingPayouts
    exact List.mem_filter.2 ⟨hq0, by simp [he, hs]⟩

/-- **C5** (confirmed).  When an event has pending payouts with fresh
distinct ids, one `distributePayouts` call appends exactly one ledger
credit per payout row and marks each row completed; a second call finds
no pending payouts, errors, and leaves the store untouched, so no
payout is ever credited twice. -/
theorem c5_idempotent_distribution :
    ∀ db eid, pendingPayouts db eid ≠ [] →
      (db.payouts.map Payout.id).Nodup →
      (∀ p ∈ pendingPayouts db eid, payoutCredits db.ledger p.id = 0) →
      (∃ r, (distributePayouts db eid).2 = .ok r) ∧
      (∀ p ∈ pendingPayouts db eid,
        payoutCredits ((distributePayouts db eid).1).ledger p.id = 1 ∧
        { p with status := PayoutStatus.completed } ∈
          ((distributePayouts db eid).1).payouts) ∧
      distributePayouts ((distributePayouts db eid).1) eid =
        (((distributePayouts db eid).1), .error .noPendingPayouts) := by
  intro db eid hne hnd hzero
  have hndp : ((pendingPayouts db eid).map Payout.id).Nodup :=
    hnd.sublist ((List.filter_sublist _).map Payout.id)
  rw [distributePayouts_run db eid hne]
  dsimp only
  refine ⟨⟨_, rfl⟩, ?_, ?_⟩
  · intro p hp
    constructor
    · rw [payoutCredits_append, hzero p hp, payoutCredits_entries,
        filter_id_length_one (pendingPayouts db eid) hndp p hp]
    · have hmem : p ∈ db.payouts := List.mem_of_mem_filter hp
      have himg := List.mem_map_of_mem
        (completeAll ((pendingPayouts db eid).map Payout.id)) hmem
      have heq : completeAll ((pendingPayouts db eid).map Payout.id) p =
          { p with status := .completed } := by
        unfold completeAll
        rw [if_pos (List.mem_map_of_mem Payout.id hp)]
      rw [heq] at himg
      exact himg
  · have h2 := pendingPayouts_complete db eid
      { db with
        events := db.events.map (setEventPaidOut eid),
        ledger := db.ledger ++ (pendingPayouts db eid).map (payoutEntry db),
        payouts := db.payouts.map
          (completeAll ((pendingPayouts db eid).map Payout.id)) } rfl
    unfold distributePayouts
    rw [h2]
    rfl

/-- Witness for C5: the single pending 250-chip payout of `dbPay` is
credited exactly once and the retry is rejected. -/
theorem c5_idempotent_distribution_witness :
    (∃ r, (distributePayouts dbPay 7).2 = .ok r) ∧
    payoutCredits ((distributePayouts dbPay 7).1).ledger 4 = 1 ∧
    ({ (⟨4, 7, 1, 250, .pending⟩ : Payout) with status := PayoutStatus.completed } ∈
      ((distributePayouts dbPay 7).1).payouts) ∧
    distributePayouts ((distributePayouts dbPay 7).1) 7 =
      (((distributePayouts dbPay 7).1), .error .noPendingPayouts) := by
  have h := c5_idempotent_distribution dbPay 7 (by simp [pendingPayouts, dbPay])
    (by simp [dbPay]) (fun p _ => rfl)
  have hp : (⟨4, 7, 1, 250, .pending⟩ : Payout) ∈ pendingPayouts dbPay 7 := by
    simp [pendingPayouts, dbPay]
  exact ⟨h.1, (h.2.1 _ hp).1, (h.2.1 _ hp).2, h.2.2⟩

/-! ### C6 -/

lemma userChipEntries_append (db db2 : DB) (u : Nat) (e : LedgerEntry)
    (hl : db2.ledger = db.ledger ++ [e]) (heu : e.userId = u)
    (hec : e.currency = "chips") :
    userChipEntries db2 u = userChipEntries db u ++ [e] := by
  unfold userChipEntries
  rw [hl, List.filter_append]
  congr 1
  simp [heu, hec]

lemma rawBuckets_append (db db2 : DB) (u : Nat) (e : LedgerEntry)
    (hl : db2.ledger = db.ledger ++ [e]) (heu : e.userId = u)
    (hec : e.currency = "chips") :
    rawBuckets db2 u = classifyTx (rawBuckets db u) e := by
  unfold rawBuckets
  rw [userChipEntries_append db db2 u e hl heu hec, List.foldl_append]
  rfl

lemma requestWithdrawal_parts (db : DB) (u : Nat) (amount : ℚ)
    (hle : amount ≤ (getUserBalances db u).wonChips) :
    (∃ bal, (requestWithdrawal db u amount).2 = .ok ⟨db.nextId, bal⟩) ∧
    (requestWithdrawal db u amount).1.ledger =
      db.ledger ++ [⟨u, "chips", -amount, (getUserBalances db u).totalChips,
        (getUserBalances db u).totalChips - amount, .cashout,
        some .cashoutRequest, some db.nextId⟩] ∧
    (requestWithdrawal db u amount).1.bets = db.bets ∧
    (requestWithdrawal db u amount).1.cashouts =
      db.cashouts ++ [⟨db.nextId, u, amount, .pending⟩] := by
  unfold requestWithdrawal
  dsimp only
  rw [if_neg (not_lt.2 hle)]
  exact ⟨⟨_, rfl⟩, rfl, rfl, rfl⟩

lemma processWithdrawal_fail_parts (db : DB) (rid : Nat) (req : CashOutRequest)
    (hfind : findCashout db rid = some req)
    (hpend : req.status = CashOutStatus.pending) :
    (processWithdrawal db rid false).2 = .error .withdrawalFailed ∧
    (processWithdrawal db rid false).1.ledger =
      db.ledger ++ [⟨req.userId, "chips", req.amount,
        (getUserBalances db req.userId).totalChips,
        (getUserBalances db req.userId).totalChips + req.amount,
        .betWon, some .cashoutRequestRefund, some rid⟩] ∧
    (processWithdrawal db rid false).1.cashouts =
      db.cashouts.map (fun r => if r.id = rid then { r with status := .rejected } else r) ∧
    (processWithdrawal db rid false).1.bets = db.bets := by
  unfold processWithdrawal
  rw [hfind]
  dsimp only
  rw [if_neg (by simp [hpend]), if_neg Bool.false_ne_true]
  exact ⟨rfl, rfl, rfl, rfl⟩

lemma find?_map_setStatus (l : List CashOutRequest) (rid : Nat) (st : CashOutStatus)
    (hnel : ∀ r ∈ l, r.id ≠ rid) (r0 : CashOutRequest) (h0 : r0.id = rid) :
    ((l ++ [r0]).map (fun r => if r.id = rid then { r with status := st } else r)).find?
        (fun r => decide (r.id = rid)) = some { r0 with status := st } := by
  induction l with
  | nil => simp [h0]
  | cons a l ih =>
      have ha : ¬(a.id = rid) := hnel a (List.mem_cons_self a l)
      rw [List.cons_append, List.map_cons, if_neg ha]
      rw [List.find?_cons_of_neg _ (by simp [ha])]
      exact ih (fun r hr => hnel r (List.mem_cons_of_mem a hr))

/-- **C6** (confirmed).  With `0 < amount ≤ won`, `requestWithdrawal`
creates the pending request and debits the won balance by exactly
`amount`; a failing `processWithdrawal` then marks the request
rejected, appends one compensating `bet_won` credit of `amount`, and
restores the won balance to its exact pre-request value. -/
theorem c6_withdrawal_round_trip :
    ∀ db u amount, 0 < amount →
      amount ≤ (getUserBalances db u).wonChips →
      (∀ r ∈ db.cashouts, r.id ≠ db.nextId) →
      (∃ bal, (requestWithdrawal db u amount).2 = .ok ⟨db.nextId, bal⟩) ∧
      (getUserBalances (requestWithdrawal db u amount).1 u).wonChips =
        (getUserBalances db u).wonChips - amount ∧
      (processWithdrawal (requestWithdrawal db u amount).1 db.nextId false).2 =
        .error .withdrawalFailed ∧
      findCashout (processWithdrawal (requestWithdrawal db u amount).1 db.nextId false).1
          db.nextId = some ⟨db.nextId, u, amount, .rejected⟩ ∧
      (∃ e : LedgerEntry,
        (processWithdrawal (requestWithdrawal db u amount).1 db.nextId false).1.ledger =
          (requestWithdrawal db u amount).1.ledger ++ [e] ∧
        e.userId = u ∧ e.amount = amount ∧ e.txType = TxType.betWon) ∧
      (getUserBalances
          (processWithdrawal (requestWithdrawal db u amount).1 db.nextId false).1
          u).wonChips =
        (getUserBalances db u).wonChips := by
  intro db u amount hpos hle hfresh
  obtain ⟨hok, hled, hbets, hcash⟩ := requestWithdrawal_parts db u amount hle
  -- raw won bucket before
  have hw0 : 0 ≤ (rawBuckets db u).w := by
    by_contra hneg
    rw [wonChips_def, max_eq_left (le_of_lt (not_le.1 hneg))] at hle
    exact absurd (lt_of_lt_of_le hpos hle) (lt_irrefl 0)
  have hmax0 : max 0 (rawBuckets db u).w = (rawBuckets db u).w := max_eq_right hw0
  have hwle : amount ≤ (rawBuckets db u).w := by
    rw [wonChips_def, hmax0] at hle
    exact hle
  -- buckets after the hold
  have hb1 : rawBuckets (requestWithdrawal db u amount).1 u =
      classifyTx (rawBuckets db u)
        ⟨u, "chips", -amount, (getUserBalances db u).totalChips,
          (getUserBalances db u).totalChips - amount, .cashout,
          some .cashoutRequest, some db.nextId⟩ :=
    rawBuckets_append db _ u _ hled rfl rfl
  have hcx : classifyTx (rawBuckets db u)
        ⟨u, "chips", -amount, (getUserBalances db u).totalChips,
          (getUserBalances db u).totalChips - amount, .cashout,
          some .cashoutRequest, some db.nextId⟩ =
      { rawBuckets db u with w := (rawBuckets db u).w + -amount } := by
    unfold classifyTx
    dsimp only
    rw [if_pos (neg_lt_zero.2 hpos)]
  have hwon1 : (getUserBalances (requestWithdrawal db u amount).1 u).wonChips =
      (getUserBalances db u).wonChips - amount := by
    rw [wonChips_def, hb1, hcx, wonChips_def, hmax0]
    dsimp only
    rw [max_eq_right (by linarith)]
    ring
  -- the failed processing
  have hfind : findCashout (requestWithdrawal db u amount).1 db.nextId =
      some ⟨db.nextId, u, amount, .pending⟩ := by
    unfold findCashout
    rw [hcash]
    rw [List.find?_append]
    have hnone : db.cashouts.find? (fun r => decide (r.id = db.nextId)) = none := by
      apply List.find?_eq_none.2
      intro r hr
      simp [hfresh r hr]
    rw [hnone]
    simp
  obtain ⟨hperr, hpled, hpcash, hpbets⟩ :=
    processWithdrawal_fail_parts (requestWithdrawal db u amount).1 db.nextId
      ⟨db.nextId, u, amount, .pending⟩ hfind rfl
  refine ⟨hok, hwon1, hperr, ?_, ⟨_, hpled, rfl, rfl, rfl⟩, ?_⟩
  · unfold findCashout
    rw [hpcash, hcash]
    exact find?_map_setStatus db.cashouts db.nextId .rejected hfresh _ rfl
  · have hb2 : rawBuckets
        (processWithdrawal (requestWithdrawal db u amount).1 db.nextId false).1 u =
        classifyTx (rawBuckets (requestWithdrawal db u amount).1 u)
          ⟨u, "chips", amount,
            (getUserBalances (requestWithdrawal db u amount).1 u).totalChips,
            (getUserBalances (requestWithdrawal db u amount).1 u).totalChips + amount,
            .betWon, some .cashoutRequestRefund, some db.nextId⟩ :=
      rawBuckets_append _ _ u _ hpled rfl rfl
    rw [wonChips_def, hb2, hb1, hcx]
    unfold classifyTx
    dsimp only
    rw [wonChips_def]
    congr 1
    ring

/-- Witness for C6: user 1 holds 50 won chips, requests 20, and the
external transfer fails. -/
theorem c6_withdrawal_round_trip_witness :
    (∃ bal, (requestWithdrawal dbWon 1 20).2 = .ok ⟨dbWon.nextId, bal⟩) ∧
    (getUserBalances (requestWithdrawal dbWon 1 20).1 1).wonChips =
      (getUserBalances dbWon 1).wonChips - 20 ∧
    (processWithdrawal (requestWithdrawal dbWon 1 20).1 dbWon.nextId false).2 =
      .error .withdrawalFailed ∧
    (getUserBalances
        (processWithdrawal (requestWithdrawal dbWon 1 20).1 dbWon.nextId false).1
        1).wonChips =
      (getUserBalances dbWon 1).wonChips := by
  have h := c6_withdrawal_round_trip dbWon 1 20 (by norm_num)
    (by rw [wonChips_def]
        norm_num [rawBuckets, userChipEntries, dbWon, classifyTx])
    (fun r hr => absurd hr (List.not_mem_nil r))
  exact ⟨h.1, h.2.1, h.2.2.1, h.2.2.2.2.2⟩

/-! ### C7 -/

/-- **C7** (code_bug).  The claim requires that two 60-chip bets from a
user whose total balance is 100 can never both succeed.  In the code
the sufficiency check compares `totalChips = purchased + won + free`,
which is not reduced by the `bet_placed` debit (locked chips are
tracked separately and not subtracted), so even two strictly
*sequential* 60-chip bets both pass the check and both succeed,
staking 120 against a single 100-chip deposit — a fortiori the
concurrent guarantee does not hold. -/
theorem c7_double_bet_overdraw :
    ((placeBet db100 0 1 7 "A" 60).2 matches .ok _) = true ∧
    ((placeBet (placeBet db100 0 1 7 "A" 60).1 0 1 7 "A" 60).2 matches .ok _) = true ∧
    (((placeBet (placeBet db100 0 1 7 "A" 60).1 0 1 7 "A" 60).1.bets.map
        Bet.amount).sum = 120) ∧
    ((db100.ledger.map LedgerEntry.amount).sum = 100) := by
  norm_num [placeBet, findEvent, findChoice, lockCheck, getUserBalances, rawBuckets,
    userChipEntries, activeBetSum, db100, evActive7, classifyTx, updChoicePool]

/-! ### C8 -/

lemma placeBet_insufficient (db : DB) (now u eid : Nat) (side : String) (amount : ℚ)
    (ev : Event) (c : Choice)
    (hev : findEvent db eid = some ev) (hst : ev.status = EventStatus.active)
    (hlock : lockCheck ev now = false) (hc : findChoice db eid side = some c)
    (hbal : (getUserBalances db u).totalChips < amount) :
    placeBet db now u eid side amount =
      (db, .error (.insufficientBalance (getUserBalances db u).totalChips)) := by
  unfold placeBet
  rw [hev]
  dsimp only
  rw [if_neg (by simp [hst]), if_neg (by simp [hlock]), hc]
  dsimp only
  rw [if_pos hbal]

/-- **C8** (confirmed).  When the event gates pass but
`totalChips < amount`, `placeBet` fails reporting the available total
and leaves the store untouched (no bet row, no ledger entry, no pool
increment); in particular a user holding 5 chips betting 10 receives
the error carrying `available: 5`. -/
theorem c8_insufficient_funds :
    (∀ db now u eid side amount ev c,
      findEvent db eid = some ev → ev.status = EventStatus.active →
      lockCheck ev now = false → findChoice db eid side = some c →
      (getUserBalances db u).totalChips < amount →
      placeBet db now u eid side amount =
        (db, .error (.insufficientBalance (getUserBalances db u).totalChips))) ∧
    placeBet db5 0 1 7 "A" 10 = (db5, .error (.insufficientBalance 5)) := by
  refine ⟨?_, ?_⟩
  · intro db now u eid side amount ev c hev hst hlock hc hbal
    exact placeBet_insufficient db now u eid side amount ev c hev hst hlock hc hbal
  · have h5 : (getUserBalances db5 1).totalChips = 5 := by
      rw [totalChips_def]
      norm_num [rawBuckets, userChipEntries, db5, classifyTx]
    have h := placeBet_insufficient db5 0 1 7 "A" 10 evActive7 ⟨7, "A", 0⟩ rfl rfl rfl rfl
      (by rw [h5]; norm_num)
    rw [h5] at h
    exact h

/-- Witness for C8: the same failure on choice B. -/
theorem c8_insufficient_funds_witness :
    placeBet db5 0 1 7 "B" 10 =
      (db5, .error (.insufficientBalance ((getUserBalances db5 1).totalChips))) := by
  exact c8_insufficient_funds.1 db5 0 1 7 "B" 10 evActive7 ⟨7, "B", 0⟩ rfl rfl rfl rfl
    (by rw [totalChips_def]
        norm_num [rawBuckets, userChipEntries, db5, classifyTx])

/-! ### C9 -/

/-- Counterexample for C9: the claim says `getUserBalances` fails with
`NotFound` when the user does not exist, but the service never looks
the user up: on an empty store and an arbitrary user id it succeeds
with all-zero balances instead of failing. -/
theorem c9_notfound_counterexample :
    getUserBalances emptyDB 42 = ⟨0, 0, 0, 0, 0⟩ := by
  simp [getUserBalances, rawBuckets, userChipEntries, activeBetSum, emptyDB]

/-- **C9** (corrected).  `getUserBalances` is total — it performs no
user-existence check and never fails — and for any user id with no
ledger entries and no bets (existing or not) it returns all-zero
balances. -/
theorem c9_zero_balances :
    ∀ db u, (∀ e ∈ db.ledger, e.userId ≠ u) → (∀ b ∈ db.bets, b.userId ≠ u) →
      getUserBalances db u = ⟨0, 0, 0, 0, 0⟩ := by
  intro db u hl hb
  have h1 : userChipEntries db u = [] := by
    apply List.filter_eq_nil_iff.2
    intro e he
    simp [hl e he]
  have h2 : db.bets.filter
      (fun b => decide (b.userId = u ∧ b.status = BetStatus.active)) = [] := by
    apply List.filter_eq_nil_iff.2
    intro b hbm
    simp [hb b hbm]
  unfold getUserBalances rawBuckets activeBetSum
  rw [h1, h2]
  show (⟨max 0 (0:ℚ), max 0 (0:ℚ), max 0 (0:ℚ), max 0 (0:ℚ),
      max 0 (0:ℚ) + max 0 (0:ℚ) + max 0 (0:ℚ)⟩ : UserBalances) = ⟨0, 0, 0, 0, 0⟩
  rw [max_self, add_zero, add_zero]

/-- Witness for C9: user 9 has no rows in `db5`. -/
theorem c9_zero_balances_witness :
    getUserBalances db5 9 = ⟨0, 0, 0, 0, 0⟩ := by
  refine c9_zero_balances db5 9 ?_ (fun b hb => absurd hb (List.not_mem_nil b))
  intro e he
  rw [List.mem_singleton.1 he]
  norm_num

/-! ### C10 -/

lemma refundEvent_not_cancelled (db : DB) (eid : Nat) (ev : Event)
    (hev : findEvent db eid = some ev) (hnc : ev.status ≠ EventStatus.cancelled) :
    refundEvent db eid = (db, .error .mustBeCancelled) := by
  unfold refundEvent
  rw [hev]
  dsimp only
  rw [if_pos hnc]

lemma setEventCompleted_id (eid : Nat) (side : String) (e : Event) :
    (setEventCompleted eid side e).id = e.id := by
  unfold setEventCompleted
  split <;> rfl

lemma findEvent_map_setCompleted (db : DB) (eid : Nat) (side : String) (ev : Event)
    (hev : findEvent db eid = some ev) :
    (db.events.map (setEventCompleted eid side)).find? (fun e => decide (e.id = eid)) =
      some { ev with status := EventStatus.completed, winningSide := some side } := by
  rw [List.find?_map]
  have hp : ((fun e => decide (e.id = eid)) ∘ setEventCompleted eid side) =
      (fun e : Event => decide (e.id = eid)) := by
    funext e
    simp [Function.comp, setEventCompleted_id]
  rw [hp]
  unfold findEvent at hev
  rw [hev]
  have hid : ev.id = eid := by
    have := List.find?_some hev
    simpa using this
  show some (setEventCompleted eid side ev) = _
  unfold setEventCompleted
  rw [if_pos hid]

/-- **C10** (confirmed).  A degenerate resolution (`winningPool == 0`)
leaves the event `completed` — not `cancelled` — and appends no ledger
credit, while `refundEvent` errors on every event whose status is not
`cancelled` and `cancelEvent` rejects completed events; consequently
the path that would credit the refunded stakes can never run for a
degenerately-resolved event and the bettors' balances are never
credited. -/
theorem c10_stranded_refunds :
    ∀ db eid side ev wc,
      findEvent db eid = some ev →
      (ev.status = EventStatus.locked ∨ ev.status = EventStatus.active) →
      (eventChoices db eid).find? (fun c => decide (c.choiceLetter = side)) = some wc →
      wc.totalPool = 0 →
      (∃ r, (resolveEvent db eid side).2 = .ok r) ∧
      findEvent (resolveEvent db eid side).1 eid =
        some { ev with status := EventStatus.completed, winningSide := some side } ∧
      (resolveEvent db eid side).1.ledger = db.ledger ∧
      (∀ db2 eid2 ev2, findEvent db2 eid2 = some ev2 →
        ev2.status ≠ EventStatus.cancelled →
        refundEvent db2 eid2 = (db2, .error .mustBeCancelled)) ∧
      refundEvent (resolveEvent db eid side).1 eid =
        ((resolveEvent db eid side).1, .error .mustBeCancelled) ∧
      cancelEvent (resolveEvent db eid side).1 eid =
        ((resolveEvent db eid side).1, .error .cannotCancel) := by
  intro db eid side ev wc hev hst hwc hz
  obtain ⟨hok, hpay, hled, hevents, hmem⟩ :=
    resolveEvent_degenerate db eid side ev wc hev hst hwc hz
  have hfind2 : findEvent (resolveEvent db eid side).1 eid =
      some { ev with status := EventStatus.completed, winningSide := some side } := by
    unfold findEvent
    rw [hevents]
    exact findEvent_map_setCompleted db eid side ev hev
  refine ⟨⟨_, hok⟩, hfind2, hled, ?_, ?_, ?_⟩
  · intro db2 eid2 ev2 h1 h2
    exact refundEvent_not_cancelled db2 eid2 ev2 h1 h2
  · exact refundEvent_not_cancelled _ eid _ hfind2
      (fun h => EventStatus.noConfusion h)
  · unfold cancelEvent
    rw [hfind2]
    dsimp only
    rw [if_pos (Or.inl rfl)]

/-- Witness for C10: after degenerately resolving `degenDB`, the refund
path and the cancellation path are both rejected. -/
theorem c10_stranded_refunds_witness :
    (∃ r, (resolveEvent degenDB 7 "A").2 = .ok r) ∧
    refundEvent (resolveEvent degenDB 7 "A").1 7 =
      ((resolveEvent degenDB 7 "A").1, .error .mustBeCancelled) ∧
    cancelEvent (resolveEvent degenDB 7 "A").1 7 =
      ((resolveEvent degenDB 7 "A").1, .error .cannotCancel) := by
  have h := c10_stranded_refunds degenDB 7 "A" evActive7 ⟨7, "A", 0⟩ rfl (Or.inr rfl) rfl rfl
  exact ⟨h.1, h.2.2.2.2.1, h.2.2.2.2.2⟩

end WagerVS
